import Mathlib

/-!
Shallow embedding of the go-rat/cas CAS REST client core
(`service_validate.go`, `rest_handler.go`) and proofs about it.

Go strings are byte strings; the plain-text CAS protocol bodies handled here
are ASCII, so `List Char` stands in for the byte sequence of a Go string and
`String` for a Go string value. Go's `(value, error)` return pairs are
modelled as `Except String value` (an error carries its message), a `nil`
pointer result with a `nil` error as `Except.ok none`. A Go runtime panic
(e.g. a slice bounds violation) is modelled explicitly by `GoResult.panic`.
-/

namespace Cas

/-- Outcome of Go code that can panic at runtime. -/
inductive GoResult (α : Type) where
  | ok (a : α)
  | panic (msg : String)
deriving Repr, DecidableEq

/-- An HTTP response as the client observes it: status code and fully read body. -/
structure HttpResponse where
  statusCode : Nat
  body : String
deriving Repr, DecidableEq

/-- Modelled from the spec: `AuthenticationResponse` (its Go definition is not
under `src/`) carries the principal (`User`) and an ordered attribute multimap;
only the fields the validator sets are modelled. -/
structure AuthenticationResponse where
  User : String
  Attributes : List (String × List String) := []
deriving Repr, DecidableEq

/-- The parts of a Go `net/url.URL` value this client reads or writes:
scheme, host, path, and the raw (encoded) query string. -/
structure URL where
  scheme : String
  host : String
  path : String
  rawQuery : String
deriving Repr, DecidableEq

/-- The network oracle: maps a request URL to a transport/read error or to the
response (status plus fully read body). One HTTP GET = one application. -/
def Net : Type := String → Except String HttpResponse

/-- The Go slice expression `s[lo:hi]`: panics unless `lo ≤ hi ≤ len(s)`. -/
def goSlice (s : String) (lo hi : Nat) : GoResult String :=
  if lo ≤ hi ∧ hi ≤ s.data.length then
    GoResult.ok (String.mk ((s.data.drop lo).take (hi - lo)))
  else
    GoResult.panic "slice bounds out of range"

/-- Split a character list at every occurrence of `sep`:
`splitOnCh '/' "a/b".data = ["a".data, "b".data]`. -/
def splitOnCh (sep : Char) : List Char → List (List Char)
  | [] => [[]]
  | c :: l =>
    if c = sep then [] :: splitOnCh sep l
    else (c :: (splitOnCh sep l).headI) :: (splitOnCh sep l).tail

/-- Join character lists with the separator `sep` between them. -/
def joinWith (sep : Char) : List (List Char) → List Char
  | [] => []
  | s :: rest => s ++ (if rest = [] then [] else sep :: joinWith sep rest)

/-- The segment stack of Go `path.Clean`: empty and `.` segments are dropped,
`..` pops the previous segment when possible (when rooted, excess `..` is
dropped; when not rooted it is kept). -/
def cleanSegs (rooted : Bool) (acc : List (List Char)) : List (List Char) → List (List Char)
  | [] => acc
  | seg :: rest =>
    if seg = [] ∨ seg = ['.'] then cleanSegs rooted acc rest
    else if seg = ['.', '.'] then
      if acc ≠ [] ∧ acc.getLast? ≠ some ['.', '.'] then cleanSegs rooted acc.dropLast rest
      else if rooted then cleanSegs rooted acc rest
      else cleanSegs rooted (acc ++ [seg]) rest
    else cleanSegs rooted (acc ++ [seg]) rest

/-- Models Go `path.Clean` at the character-list level. -/
def pathCleanCore (l : List Char) : List Char :=
  if l = [] then ['.']
  else
    let rooted := l.head? = some '/'
    let segs := cleanSegs rooted [] (splitOnCh '/' l)
    if rooted then '/' :: joinWith '/' segs
    else if segs = [] then ['.']
    else joinWith '/' segs

/-- Models Go `path.Clean`. -/
def pathClean (p : String) : String := String.mk (pathCleanCore p.data)

/-- Models Go `path.Join` on two elements, at the character-list level: the
non-empty elements are joined with `/` and the result cleaned; joining two
empty paths gives the empty path. -/
def pathJoinCore (a b : List Char) : List Char :=
  if a = [] ∧ b = [] then []
  else if a = [] then pathCleanCore b
  else if b = [] then pathCleanCore a
  else pathCleanCore (a ++ '/' :: b)

/-- Models Go `path.Join` on two elements. -/
def pathJoin (a b : String) : String := String.mk (pathJoinCore a.data b.data)

/-- The prefix of `l` up to and including its last `'/'` (empty when `l` has
no `'/'`), as in the merge step of RFC 3986 reference resolution. -/
def upToLastSlash : List Char → List Char
  | [] => []
  | c :: rest =>
    if rest.contains '/' then c :: upToLastSlash rest
    else if c = '/' then ['/']
    else []

/-- The segment stack of remove_dot_segments: `.` is dropped and `..` pops the
previous segment; other segments (including empty ones) are kept. -/
def remDots (acc : List (List Char)) : List (List Char) → List (List Char)
  | [] => acc
  | seg :: rest =>
    if seg = ['.'] then remDots acc rest
    else if seg = ['.', '.'] then remDots acc.dropLast rest
    else remDots (acc ++ [seg]) rest

/-- The remove_dot_segments stage of path reference resolution, applied to the
already-merged non-empty full path: split into segments, drop a leading empty
segment (the root), remove dot segments, and render rooted; a trailing `.` or
`..` segment leaves a trailing slash. -/
def dotStage (full : List Char) : List Char :=
  let segs := splitOnCh '/' full
  let segs := if segs.headI = [] then segs.tail else segs
  let segs :=
    if segs.getLast? = some ['.'] ∨ segs.getLast? = some ['.', '.'] then
      remDots [] segs ++ [[]]
    else remDots [] segs
  '/' :: joinWith '/' segs

/-- Models net/url `resolvePath` (RFC 3986 §5.3: merge the reference path with
the base path, then remove_dot_segments) at the character-list level; a
non-empty result always begins with `'/'`. -/
def resolvePathCore (base ref : List Char) : List Char :=
  let full : List Char :=
    if ref = [] then base
    else if ref.head? = some '/' then ref
    else upToLastSlash base ++ ref
  if full = [] then []
  else dotStage full

/-- Models net/url `resolvePath`. -/
def resolvePath (base ref : String) : String :=
  String.mk (resolvePathCore base.data ref.data)

/-- Models `base.Parse(ref)` of net/url for a plain path reference (no scheme,
no query, no fragment — the only reference shape the validator builds): the
path is resolved against the base, and the result's raw query is the
reference's, i.e. empty. -/
def casParse (base : URL) (ref : String) : URL :=
  { scheme := base.scheme, host := base.host,
    path := resolvePath base.path ref, rawQuery := "" }

/-- Uppercase hexadecimal digit for `n < 16`. -/
def hexDigit (n : Nat) : Char := if n < 10 then Char.ofNat (48 + n) else Char.ofNat (55 + n)

/-- Models net/url query escaping of one ASCII byte: unreserved bytes are kept,
a space becomes `'+'`, anything else is percent-encoded in uppercase hex. -/
def escapeChar (c : Char) : List Char :=
  if ('A' ≤ c ∧ c ≤ 'Z') ∨ ('a' ≤ c ∧ c ≤ 'z') ∨ ('0' ≤ c ∧ c ≤ '9')
      ∨ c = '-' ∨ c = '_' ∨ c = '.' ∨ c = '~' then [c]
  else if c = ' ' then ['+']
  else ['%', hexDigit (c.toNat / 16 % 16), hexDigit (c.toNat % 16)]

/-- Models net/url `QueryEscape` on ASCII strings. -/
def queryEscape (s : String) : String := String.mk (s.data.map escapeChar).flatten

/-- Models net/url `ParseQuery` as the flat key/value list in order of
appearance (Go stores a map from key to value slice; the in-order flat list
carries the same information for `Encode`, which sorts by key and keeps the
per-key insertion order). Empty `&`-segments are skipped; a segment splits at
its first `'='`. Percent-decoding of the raw query is not modelled. -/
def parseQuery (raw : String) : List (String × String) :=
  (splitOnCh '&' raw.data).filterMap fun kv =>
    if kv = [] then none
    else
      let ks := splitOnCh '=' kv
      some (String.mk ks.headI, String.mk (joinWith '=' ks.tail))

/-- Insert `p` into a key-sorted list, after all entries whose key is `≤ p`'s. -/
def insertPair (p : String × String) : List (String × String) → List (String × String)
  | [] => [p]
  | q :: rest => if p.1.data < q.1.data then p :: q :: rest else q :: insertPair p rest

/-- Stable insertion sort by key: the key order of `url.Values.Encode`. -/
def sortPairs (l : List (String × String)) : List (String × String) :=
  l.foldl (fun acc p => insertPair p acc) []

/-- Models `url.Values.Encode` over the flat pair list: sort by key (stable),
escape keys and values, join as `k=v` pairs with `'&'`. -/
def encodeQuery (q : List (String × String)) : String :=
  String.mk (joinWith '&' ((sortPairs q).map fun p =>
    (queryEscape p.1).data ++ '=' :: (queryEscape p.2).data))

/-- Models `url.URL.String` for the absolute URLs this client handles:
scheme, host, path and the optional raw query. -/
def urlString (u : URL) : String :=
  u.scheme ++ "://" ++ u.host ++ u.path ++
    (if u.rawQuery = "" then "" else "?" ++ u.rawQuery)

/-- Modelled from the spec: `sanitisedURLString` (defined in a repository file
that is not under `src/`) renders the service URL to its canonical string
form; both validation-URL builders apply this one rendering to `serviceURL`. -/
def sanitisedURLString (u : URL) : String := urlString u

/-- The validator's immutable configuration; the HTTP client it holds is
modelled by the `Net` oracle passed to the request-issuing functions. -/
structure ServiceTicketValidator where
  casURL : URL
deriving Repr, DecidableEq

/-- `ServiceValidateUrl` creates the service validation url for the
cas >= 2 protocol (src/service_validate.go:82-94). In the model the URL parse
cannot fail, so the error branch of the source is empty and the result is the
built string itself. -/
def ServiceValidateUrl (validator : ServiceTicketValidator) (serviceURL : URL)
    (ticket : String) : String :=
  let u := casParse validator.casURL (pathJoin validator.casURL.path "serviceValidate")
  let q := parseQuery u.rawQuery
  let q := q ++ [("service", sanitisedURLString serviceURL)]
  let q := q ++ [("ticket", ticket)]
  urlString { u with rawQuery := encodeQuery q }

/-- `ValidateUrl` creates the validation url for the cas >= 1 protocol
(src/service_validate.go:148-160). -/
def ValidateUrl (validator : ServiceTicketValidator) (serviceURL : URL)
    (ticket : String) : String :=
  let u := casParse validator.casURL (pathJoin validator.casURL.path "validate")
  let q := parseQuery u.rawQuery
  let q := q ++ [("service", sanitisedURLString serviceURL)]
  let q := q ++ [("ticket", ticket)]
  urlString { u with rawQuery := encodeQuery q }

/-- What a `ValidateTicket` run did on the wire and with the parser:
the GET request URLs issued in order, and the bodies handed to
`ParseServiceResponse`. -/
structure ValidateTrace where
  requests : List String
  parserCalls : List String
deriving Repr, DecidableEq

/-- `validateTicketCas1` (src/service_validate.go:96-144): build the CAS1
validation URL, GET it, and interpret the plain-text body. A transport or
body-read failure is the oracle's error. A non-200 status is a protocol
error carrying the body. The exact body `"no\n\n"` is the not-logged-in
result `(nil, nil)`, i.e. `Except.ok none`. Any other body is sliced as
`body[4 : len(body)-1]` — which panics when out of bounds — and returned as
a success with that principal and no attributes. Alongside the result, the
list of request URLs issued. -/
def validateTicketCas1 (validator : ServiceTicketValidator) (net : Net)
    (serviceURL : URL) (ticket : String) :
    GoResult (Except String (Option AuthenticationResponse)) × List String :=
  let u := ValidateUrl validator serviceURL ticket
  match net u with
  | Except.error e => (GoResult.ok (Except.error e), [u])
  | Except.ok resp =>
    let body := resp.body
    if resp.statusCode ≠ 200 then
      (GoResult.ok (Except.error ("cas: validate ticket: " ++ body)), [u])
    else if body = "no\n\n" then
      (GoResult.ok (Except.ok none), [u])
    else
      match goSlice body 4 (body.data.length - 1) with
      | GoResult.ok user =>
        (GoResult.ok (Except.ok (some { User := user })), [u])
      | GoResult.panic m => (GoResult.panic m, [u])

/-- `ValidateTicket` (src/service_validate.go:29-78): GET the CAS2
serviceValidate URL; on status 404 fall back to `validateTicketCas1` with the
same `serviceURL` and `ticket`; on any other non-200 status fail with a
protocol error carrying the body; on 200 hand the body to the response parser
(`ParseServiceResponse` is not under `src/`, so it is the oracle `parse`).
Alongside the result, the trace of requests issued and parser calls made. -/
def ValidateTicket (validator : ServiceTicketValidator) (net : Net)
    (parse : String → Except String AuthenticationResponse)
    (serviceURL : URL) (ticket : String) :
    GoResult (Except String (Option AuthenticationResponse)) × ValidateTrace :=
  let u := ServiceValidateUrl validator serviceURL ticket
  match net u with
  | Except.error e => (GoResult.ok (Except.error e), ⟨[u], []⟩)
  | Except.ok resp =>
    if resp.statusCode = 404 then
      let r := validateTicketCas1 validator net serviceURL ticket
      (r.1, ⟨u :: r.2, []⟩)
    else if resp.statusCode ≠ 200 then
      (GoResult.ok (Except.error ("cas: validate ticket: " ++ resp.body)), ⟨[u], []⟩)
    else
      match parse resp.body with
      | Except.error e => (GoResult.ok (Except.error e), ⟨[u], [resp.body]⟩)
      | Except.ok success => (GoResult.ok (Except.ok (some success)), ⟨[u], [resp.body]⟩)

/-- `restClientHandler.authenticate` (src/rest_handler.go:42-54): request a
granting ticket for the credentials, exchange it for a service ticket, and
validate that ticket, propagating the first error. `RequestGrantingTicket`,
`RequestServiceTicket` and `ValidateServiceTicket` live in repository files
not under `src/`, so they are oracle parameters; the result mirrors the Go
pair `(*AuthenticationResponse, error)` with `Except.ok none` for
`(nil, nil)`. -/
def authenticate (requestGrantingTicket : String → String → Except String String)
    (requestServiceTicket : String → Except String String)
    (validateServiceTicket : String → Except String (Option AuthenticationResponse))
    (username password : String) : Except String (Option AuthenticationResponse) := do
  let tgt ← requestGrantingTicket username password
  let st ← requestServiceTicket tgt
  validateServiceTicket st

/-- What one `ServeHTTP` call did: headers and status written to the response
writer, whether the three-call authentication chain was entered, whether
`setAuthenticationResponse` was called and with which value, and whether the
wrapped child handler was invoked. -/
structure ServeResult where
  headers : List (String × String)
  status : Option Nat
  chainInvoked : Bool
  attached : Option (Option AuthenticationResponse)
  handlerInvoked : Bool
deriving Repr, DecidableEq

/-- The 401 challenge header value written on every failure path
(src/rest_handler.go:21 and :32). -/
def challengeHeader : String × String :=
  ("WWW-Authenticate", "Basic realm=\"CAS Protected Area\"")

/-- `restClientHandler.ServeHTTP` (src/rest_handler.go:16-40). `basicAuth` is
the result of `r.BasicAuth()`: `none` when the Basic Authentication header is
absent or malformed (Go's `ok = false`). With credentials, `auth` is the
`authenticate` chain; an error yields the 401 challenge, otherwise the
returned response pointer — even a nil one — is attached to the request
(`setAuthenticationResponse` is not under `src/`; modelled from the spec as
attaching the value to the request's scoped store) and the wrapped handler is
invoked. -/
def restServeHTTP (auth : String → String → Except String (Option AuthenticationResponse))
    (basicAuth : Option (String × String)) : ServeResult :=
  match basicAuth with
  | none =>
    { headers := [challengeHeader], status := some 401,
      chainInvoked := false, attached := none, handlerInvoked := false }
  | some (username, password) =>
    match auth username password with
    | Except.error _ =>
      { headers := [challengeHeader], status := some 401,
        chainInvoked := true, attached := none, handlerInvoked := false }
    | Except.ok success =>
      { headers := [], status := none,
        chainInvoked := true, attached := some success, handlerInvoked := true }

/-- State-passing form of `ServiceValidateUrl`: the Go function receives
pointers to the validator's `casURL` and the caller's `serviceURL`; the second
and third components are the contents of those two cells when the call
returns. Every assignment in the source targets the freshly parsed `u`. -/
def ServiceValidateUrlSt (casURL serviceURL : URL) (ticket : String) :
    String × URL × URL :=
  let u := casParse casURL (pathJoin casURL.path "serviceValidate")
  let q := parseQuery u.rawQuery
  let q := q ++ [("service", sanitisedURLString serviceURL)]
  let q := q ++ [("ticket", ticket)]
  (urlString { u with rawQuery := encodeQuery q }, casURL, serviceURL)

/-- State-passing form of `ValidateUrl`, as `ServiceValidateUrlSt`. -/
def ValidateUrlSt (casURL serviceURL : URL) (ticket : String) :
    String × URL × URL :=
  let u := casParse casURL (pathJoin casURL.path "validate")
  let q := parseQuery u.rawQuery
  let q := q ++ [("service", sanitisedURLString serviceURL)]
  let q := q ++ [("ticket", ticket)]
  (urlString { u with rawQuery := encodeQuery q }, casURL, serviceURL)

/-! ### Factoring a plain final segment out of the path pipeline

`serviceValidate` and `validate` are plain segments (non-empty, no slash, not
a dot segment).  Each stage of the path pipeline — `pathCleanCore`,
`pathJoinCore`, `resolvePathCore` — treats such a final segment generically:
the output is an explicit prefix depending only on the base path, followed by
the segment itself. -/

/-- The prefix `pathCleanCore (p ++ '/' :: s)` puts before a plain final
segment `s` (for non-empty `p`); it depends only on `p`. -/
def cleanFactor (p : List Char) : List Char :=
  let rooted := p.head? = some '/'
  let A := cleanSegs rooted [] (splitOnCh '/' p)
  (if rooted then ['/'] else []) ++ (if A = [] then [] else joinWith '/' A ++ ['/'])

/-- The prefix `pathJoinCore p s` puts before a plain segment `s`. -/
def joinFactor (p : List Char) : List Char := if p = [] then [] else cleanFactor p

/-- The leading-empty-segment drop of `dotStage`, on the segments of the
merged prefix alone. -/
def dropSegFactor (M0 : List (List Char)) : List (List Char) :=
  if M0 = [] then [] else if M0.headI = [] then M0.tail else M0

/-- The prefix `dotStage` puts before a plain final segment, as a function of
the merged prefix `m` (the full path being `m ++ '/' :: s`). -/
def dotFactor (m : List Char) : List Char :=
  let R := remDots [] (dropSegFactor (splitOnCh '/' m))
  '/' :: (if R = [] then [] else joinWith '/' R ++ ['/'])

/-- The prefix that the merge step of `resolvePathCore p` puts before a plain
final segment, when the reference is `joinFactor p ++ s`. -/
def mergeFactor (p : List Char) : List Char :=
  if joinFactor p = [] then upToLastSlash p
  else if (joinFactor p).headI = '/' then joinFactor p
  else upToLastSlash p ++ joinFactor p

/-- The prefix `resolvePathCore p (pathJoinCore p s)` puts before a plain
segment `s`. -/
def resolveFactor (p : List Char) : List Char :=
  if mergeFactor p = [] then ['/'] else dotFactor (mergeFactor p).dropLast

/-! ### Concrete fixtures for closed scenarios -/

/-- Concrete CAS endpoint used in the closed scenarios. -/
def exValidator : ServiceTicketValidator :=
  ⟨{ scheme := "http", host := "cas.example.com", path := "/cas", rawQuery := "" }⟩

/-- Concrete service URL used in the closed scenarios. -/
def exService : URL :=
  { scheme := "http", host := "service.example.com", path := "/app", rawQuery := "" }

/-- A network oracle answering every request with the same response. -/
def constNet (status : Nat) (body : String) : Net :=
  fun _ => Except.ok { statusCode := status, body := body }

/-- A parser oracle that always fails; the scenarios below never reach it. -/
def failParse : String → Except String AuthenticationResponse :=
  fun body => Except.error ("cas: parse: " ++ body)

/-- Network for the NotAuthenticated scenario: the CAS2 serviceValidate URL
answers 404, everything else (the CAS1 validate URL) answers 200 with the
negative marker body. -/
def noNet : Net := fun u =>
  if u = ServiceValidateUrl exValidator exService "ST-1"
  then Except.ok { statusCode := 404, body := "Not Found" }
  else Except.ok { statusCode := 200, body := "no\n\n" }

/-- Modelled from the spec: `RestClient.ValidateServiceTicket` (not under
`src/`) delegates to the validator's `ValidateTicket` for the configured
service URL. A Go panic would abort the request; it is mapped to an error
here only for totality (this scenario never panics). -/
def noValidateServiceTicket (st : String) :
    Except String (Option AuthenticationResponse) :=
  match (ValidateTicket exValidator noNet failParse exService st).1 with
  | GoResult.ok r => r
  | GoResult.panic m => Except.error m

/-- The authenticate chain of the NotAuthenticated scenario: granting-ticket
and service-ticket requests succeed, validation yields `(nil, nil)`. -/
def noAuth : String → String → Except String (Option AuthenticationResponse) :=
  authenticate (fun _ _ => Except.ok "TGT-1") (fun _ => Except.ok "ST-1")
    noValidateServiceTicket

/-! ### Splitting and joining lemmas -/

theorem splitOnCh_ne_nil (sep : Char) (l : List Char) : splitOnCh sep l ≠ [] := by
  induction l with
  | nil => simp [splitOnCh]
  | cons c l ih =>
    simp only [splitOnCh]
    split <;> simp

theorem splitOnCh_no_sep (sep : Char) (l : List Char) (h : sep ∉ l) :
    splitOnCh sep l = [l] := by
  induction l with
  | nil => rfl
  | cons c l ih =>
    have hc : ¬ c = sep := fun hc => h (hc ▸ List.mem_cons_self c l)
    simp only [splitOnCh, if_neg hc, ih (fun hm => h (List.mem_cons_of_mem _ hm))]
    rfl

theorem splitOnCh_append_seg (sep : Char) (p s : List Char) (h : sep ∉ s) :
    splitOnCh sep (p ++ sep :: s) = splitOnCh sep p ++ [s] := by
  induction p with
  | nil =>
    simp only [List.nil_append, splitOnCh, if_pos rfl, splitOnCh_no_sep sep s h]
    rfl
  | cons c p ih =>
    show (if c = sep then [] :: splitOnCh sep (p ++ sep :: s)
        else (c :: (splitOnCh sep (p ++ sep :: s)).headI)
          :: (splitOnCh sep (p ++ sep :: s)).tail)
      = (if c = sep then [] :: splitOnCh sep p
        else (c :: (splitOnCh sep p).headI) :: (splitOnCh sep p).tail) ++ [s]
    rw [ih]
    by_cases hc : c = sep
    · rw [if_pos hc, if_pos hc]; rfl
    · rw [if_neg hc, if_neg hc]
      rcases hX : splitOnCh sep p with _ | ⟨a, rest⟩
      · exact absurd hX (splitOnCh_ne_nil sep p)
      · simp

theorem joinWith_append_seg (sep : Char) (A : List (List Char)) (s : List Char) :
    joinWith sep (A ++ [s]) = (if A = [] then [] else joinWith sep A ++ [sep]) ++ s := by
  induction A with
  | nil => simp [joinWith]
  | cons a A ih =>
    show a ++ (if A ++ [s] = [] then [] else sep :: joinWith sep (A ++ [s]))
      = (if a :: A = [] then []
          else (a ++ (if A = [] then [] else sep :: joinWith sep A)) ++ [sep]) ++ s
    rw [if_neg (show ¬ A ++ [s] = [] by simp),
        if_neg (show ¬ a :: A = [] by simp), ih]
    by_cases hA : A = []
    · subst hA; simp
    · rw [if_neg hA, if_neg hA]
      simp [List.append_assoc]

/-! ### Segment-stack lemmas for Clean and remove_dot_segments -/

theorem cleanSegs_append (r : Bool) (acc : List (List Char)) (l1 l2 : List (List Char)) :
    cleanSegs r acc (l1 ++ l2) = cleanSegs r (cleanSegs r acc l1) l2 := by
  induction l1 generalizing acc with
  | nil => rfl
  | cons seg l1 ih =>
    simp only [List.cons_append, cleanSegs]
    split
    · exact ih acc
    · split
      · split
        · exact ih _
        · split
          · exact ih _
          · exact ih _
      · exact ih _

theorem cleanSegs_seg (r : Bool) (acc : List (List Char)) (s : List Char)
    (h0 : s ≠ []) (h1 : s ≠ ['.']) (h2 : s ≠ ['.', '.']) :
    cleanSegs r acc [s] = acc ++ [s] := by
  simp only [cleanSegs]
  rw [if_neg (by simp [h0, h1]), if_neg h2]

theorem remDots_append (acc : List (List Char)) (l1 l2 : List (List Char)) :
    remDots acc (l1 ++ l2) = remDots (remDots acc l1) l2 := by
  induction l1 generalizing acc with
  | nil => rfl
  | cons seg l1 ih =>
    simp only [List.cons_append, remDots]
    split
    · exact ih acc
    · split
      · exact ih _
      · exact ih _

theorem remDots_seg (acc : List (List Char)) (s : List Char)
    (h1 : s ≠ ['.']) (h2 : s ≠ ['.', '.']) :
    remDots acc [s] = acc ++ [s] := by
  simp only [remDots]
  rw [if_neg h1, if_neg h2]

theorem upToLastSlash_slash (l : List Char) (h : l.contains '/' = true) :
    ∃ m, upToLastSlash l = m ++ ['/'] := by
  induction l with
  | nil => simp [List.contains] at h
  | cons c rest ih =>
    simp only [upToLastSlash]
    by_cases hr : rest.contains '/'
    · rw [if_pos hr]
      obtain ⟨m, hm⟩ := ih hr
      exact ⟨c :: m, by rw [hm]; rfl⟩
    · have hc : c = '/' := by
        simp only [List.contains_cons, hr, Bool.or_false, beq_iff_eq] at h
        exact h.symm
      rw [if_neg hr, if_pos hc]
      exact ⟨[], rfl⟩

theorem upToLastSlash_shape (l : List Char) :
    upToLastSlash l = [] ∨ ∃ m, upToLastSlash l = m ++ ['/'] := by
  by_cases h : l.contains '/'
  · exact Or.inr (upToLastSlash_slash l h)
  · left
    induction l with
    | nil => rfl
    | cons c rest ih =>
      simp only [List.contains_cons, Bool.or_eq_true, beq_iff_eq] at h
      push_neg at h
      simp only [upToLastSlash]
      rw [if_neg (by simpa using h.2), if_neg (fun hc => h.1 hc.symm)]

theorem cleanFactor_shape (p : List Char) :
    cleanFactor p = [] ∨ ∃ m, cleanFactor p = m ++ ['/'] := by
  simp only [cleanFactor]
  generalize cleanSegs (decide (p.head? = some '/')) [] (splitOnCh '/' p) = A
  by_cases hr : p.head? = some '/'
  · rw [if_pos hr]
    by_cases hA : A = []
    · right; exact ⟨[], by rw [if_pos hA]; rfl⟩
    · right; exact ⟨'/' :: joinWith '/' A, by rw [if_neg hA]; simp⟩
  · rw [if_neg hr]
    by_cases hA : A = []
    · left; rw [if_pos hA]; rfl
    · right; exact ⟨joinWith '/' A, by rw [if_neg hA]; simp⟩

theorem joinFactor_shape (p : List Char) :
    joinFactor p = [] ∨ ∃ m, joinFactor p = m ++ ['/'] := by
  unfold joinFactor
  by_cases hp : p = []
  · left; simp [hp]
  · rw [if_neg hp]; exact cleanFactor_shape p

theorem pathCleanCore_seg (s : List Char) (h0 : s ≠ []) (hsl : '/' ∉ s)
    (h1 : s ≠ ['.']) (h2 : s ≠ ['.', '.']) :
    pathCleanCore s = s := by
  have hr : ¬ s.head? = some '/' := by
    intro h
    exact hsl (List.mem_of_mem_head? (by rw [h]; exact rfl))
  unfold pathCleanCore
  rw [if_neg h0]
  simp only [splitOnCh_no_sep '/' s hsl, hr]
  rw [cleanSegs_seg _ _ _ h0 h1 h2]
  simp [joinWith]

theorem pathCleanCore_append_seg (p : List Char) (hp : p ≠ []) (s : List Char)
    (h0 : s ≠ []) (hsl : '/' ∉ s) (h1 : s ≠ ['.']) (h2 : s ≠ ['.', '.']) :
    pathCleanCore (p ++ '/' :: s) = cleanFactor p ++ s := by
  have hne : p ++ '/' :: s ≠ [] := by simp
  have hhead : (p ++ '/' :: s).head? = p.head? := by
    rcases p with _ | ⟨c, l⟩
    · exact absurd rfl hp
    · rfl
  simp only [pathCleanCore, cleanFactor, if_neg hne, hhead,
    splitOnCh_append_seg '/' p s hsl, cleanSegs_append,
    cleanSegs_seg _ _ _ h0 h1 h2]
  generalize cleanSegs (decide (p.head? = some '/')) [] (splitOnCh '/' p) = A
  by_cases hr : p.head? = some '/'
  · rw [if_pos hr, if_pos hr, joinWith_append_seg]
    simp
  · rw [if_neg hr, if_neg hr, if_neg (show ¬ A ++ [s] = [] by simp),
      joinWith_append_seg]
    simp

theorem head?_append_left {α : Type} (l l' : List α) (h : l ≠ []) :
    (l ++ l').head? = l.head? := by
  rcases l with _ | ⟨a, t⟩
  · exact absurd rfl h
  · rfl

theorem head?_eq_headI (l : List Char) (h : l ≠ []) : l.head? = some l.headI := by
  rcases l with _ | ⟨a, t⟩
  · exact absurd rfl h
  · rfl

theorem pathJoinCore_seg (p s : List Char) (h0 : s ≠ []) (hsl : '/' ∉ s)
    (h1 : s ≠ ['.']) (h2 : s ≠ ['.', '.']) :
    pathJoinCore p s = joinFactor p ++ s := by
  unfold pathJoinCore joinFactor
  by_cases hp : p = []
  · rw [if_neg (fun h => h0 h.2), if_pos hp, if_pos hp,
      pathCleanCore_seg s h0 hsl h1 h2]
    simp
  · rw [if_neg (fun h => hp h.1), if_neg hp, if_neg h0, if_neg hp,
      pathCleanCore_append_seg p hp s h0 hsl h1 h2]

theorem dotStage_seg (m s : List Char) (hsl : '/' ∉ s)
    (h1 : s ≠ ['.']) (h2 : s ≠ ['.', '.']) :
    dotStage (m ++ '/' :: s) = dotFactor m ++ s := by
  have hM0 := splitOnCh_ne_nil '/' m
  simp only [dotStage, dotFactor, splitOnCh_append_seg '/' m s hsl]
  have hstage : (if (splitOnCh '/' m ++ [s]).headI = []
      then (splitOnCh '/' m ++ [s]).tail else splitOnCh '/' m ++ [s])
      = dropSegFactor (splitOnCh '/' m) ++ [s] := by
    rcases hX : splitOnCh '/' m with _ | ⟨a, t⟩
    · exact absurd hX hM0
    · by_cases ha : a = []
      · subst ha
        simp [dropSegFactor]
      · simp [dropSegFactor, ha]
  rw [hstage, List.getLast?_concat, if_neg (by simp [h1, h2]),
    remDots_append, remDots_seg _ _ h1 h2, joinWith_append_seg]
  simp

theorem dotStage_seg_nil (s : List Char) (h0 : s ≠ []) (hsl : '/' ∉ s)
    (h1 : s ≠ ['.']) (h2 : s ≠ ['.', '.']) :
    dotStage s = ['/'] ++ s := by
  simp only [dotStage, splitOnCh_no_sep '/' s hsl]
  rw [if_neg (by simp [h0] : ¬ ([s] : List (List Char)).headI = []),
    show ([s] : List (List Char)).getLast? = some s from rfl,
    if_neg (by simp [h1, h2]), remDots_seg _ _ h1 h2]
  simp [joinWith]

theorem mergeFactor_shape (p : List Char) :
    mergeFactor p = [] ∨ ∃ m, mergeFactor p = m ++ ['/'] := by
  unfold mergeFactor
  rcases joinFactor_shape p with hj | ⟨m, hj⟩
  · rw [hj]
    simpa using upToLastSlash_shape p
  · rw [hj]
    rw [if_neg (by simp)]
    by_cases hh : (m ++ ['/'] : List Char).headI = '/'
    · rw [if_pos hh]
      exact Or.inr ⟨m, rfl⟩
    · rw [if_neg hh]
      exact Or.inr ⟨upToLastSlash p ++ m, by simp⟩

theorem resolvePathCore_of_merge (p F s : List Char) (h0 : s ≠ []) (hsl : '/' ∉ s)
    (h1 : s ≠ ['.']) (h2 : s ≠ ['.', '.'])
    (hF : F = [] ∨ ∃ m, F = m ++ ['/'])
    (hfull : (if joinFactor p ++ s = [] then p
        else if (joinFactor p ++ s).head? = some '/' then joinFactor p ++ s
        else upToLastSlash p ++ (joinFactor p ++ s)) = F ++ s) :
    resolvePathCore p (joinFactor p ++ s)
      = (if F = [] then ['/'] else dotFactor F.dropLast) ++ s := by
  unfold resolvePathCore
  rw [hfull, if_neg (by simp [h0])]
  rcases hF with hF | ⟨m, hF⟩
  · rw [hF]
    simp only [List.nil_append]
    rw [dotStage_seg_nil s h0 hsl h1 h2]
    simp
  · rw [hF, show (m ++ ['/']) ++ s = m ++ '/' :: s by simp,
      dotStage_seg m s hsl h1 h2, if_neg (by simp), List.dropLast_concat]

theorem resolvePathCore_join_seg (p s : List Char) (h0 : s ≠ []) (hsl : '/' ∉ s)
    (h1 : s ≠ ['.']) (h2 : s ≠ ['.', '.']) :
    resolvePathCore p (pathJoinCore p s) = resolveFactor p ++ s := by
  rw [pathJoinCore_seg p s h0 hsl h1 h2]
  have hs_head : ¬ (s.head? = some '/') := by
    intro h
    exact hsl (List.mem_of_mem_head? (by rw [h]; exact rfl))
  have hres : resolveFactor p
      = (if mergeFactor p = [] then ['/'] else dotFactor (mergeFactor p).dropLast) := rfl
  rw [hres]
  apply resolvePathCore_of_merge p _ s h0 hsl h1 h2 (mergeFactor_shape p)
  unfold mergeFactor
  rcases joinFactor_shape p with hj | ⟨m, hj⟩
  · rw [hj]
    simp only [List.nil_append]
    rw [if_neg h0, if_neg hs_head]
    simp
  · rw [hj]
    have hjne : (m ++ ['/'] : List Char) ≠ [] := by simp
    have hh? : ((m ++ ['/']) ++ s).head? = some (m ++ ['/']).headI := by
      rw [head?_append_left _ _ hjne, head?_eq_headI _ hjne]
    rw [if_neg (by simp), if_neg hjne, hh?]
    by_cases hh : (m ++ ['/'] : List Char).headI = '/'
    · rw [if_pos (by rw [hh]), if_pos hh]
    · rw [if_neg (fun h => hh (Option.some.inj h)), if_neg hh]
      simp [List.append_assoc]

/-! ### Decomposing the two built validation URLs -/

theorem str_data_append (a b : String) : (a ++ b).data = a.data ++ b.data := rfl

theorem str_data_mk (l : List Char) : (String.mk l).data = l := rfl

theorem encodeQuery_pair_ne_empty (sv t : String) :
    encodeQuery [("service", sv), ("ticket", t)] ≠ "" := by
  intro h
  have hd : (encodeQuery [("service", sv), ("ticket", t)]).data.head? = some 's' := by
    show (joinWith '&' ((sortPairs [("service", sv), ("ticket", t)]).map fun p =>
      (queryEscape p.1).data ++ '=' :: (queryEscape p.2).data)).head? = some 's'
    have hsp : sortPairs [("service", sv), ("ticket", t)]
        = [("service", sv), ("ticket", t)] := by
      show (if ("ticket", t).1.data < ("service", sv).1.data
          then ("ticket", t) :: ("service", sv) :: []
          else ("service", sv) :: insertPair ("ticket", t) []) = _
      rw [if_neg (show ¬ ("ticket", t).1.data < ("service", sv).1.data
        from (by decide : ¬ "ticket".data < "service".data))]
      rfl
    rw [hsp]
    rfl
  rw [h] at hd
  exact Option.noConfusion hd

theorem builtUrl_decompose (casURL : URL) (sv t s : String)
    (h0 : s.data ≠ []) (hsl : '/' ∉ s.data) (h1 : s.data ≠ ['.'])
    (h2 : s.data ≠ ['.', '.']) :
    urlString { scheme := casURL.scheme, host := casURL.host,
                path := resolvePath casURL.path (pathJoin casURL.path s),
                rawQuery := encodeQuery [("service", sv), ("ticket", t)] }
      = (casURL.scheme ++ "://" ++ casURL.host
          ++ String.mk (resolveFactor casURL.path.data)) ++ s
        ++ ("?" ++ encodeQuery [("service", sv), ("ticket", t)]) := by
  have hpath : (resolvePath casURL.path (pathJoin casURL.path s)).data
      = resolveFactor casURL.path.data ++ s.data := by
    show resolvePathCore casURL.path.data (pathJoinCore casURL.path.data s.data) = _
    exact resolvePathCore_join_seg _ _ h0 hsl h1 h2
  have hurl : urlString { scheme := casURL.scheme, host := casURL.host,
                          path := resolvePath casURL.path (pathJoin casURL.path s),
                          rawQuery := encodeQuery [("service", sv), ("ticket", t)] }
      = casURL.scheme ++ "://" ++ casURL.host
        ++ resolvePath casURL.path (pathJoin casURL.path s)
        ++ ("?" ++ encodeQuery [("service", sv), ("ticket", t)]) := by
    unfold urlString
    rw [if_neg (encodeQuery_pair_ne_empty sv t)]
  apply String.ext
  rw [hurl]
  simp only [str_data_append, str_data_mk, hpath, List.append_assoc]

/-! ### Helper lemmas about the validator -/

theorem validateTicketCas1_requests (validator : ServiceTicketValidator)
    (net : Net) (serviceURL : URL) (ticket : String) :
    (validateTicketCas1 validator net serviceURL ticket).2
      = [ValidateUrl validator serviceURL ticket] := by
  unfold validateTicketCas1
  dsimp only
  rcases hX : net (ValidateUrl validator serviceURL ticket) with e | resp
  · rfl
  · dsimp only
    repeat' split
    all_goals rfl

/-! ### The claims -/

/-- C1: the claim — any stage error, or the NotAuthenticated outcome from the
validator, uniformly yields a 401 and the wrapped handler is never invoked —
fails on the code for the NotAuthenticated outcome: with valid credentials,
granting- and service-ticket requests succeeding, a 404 from CAS2
serviceValidate and a 200 `"no\n\n"` from the CAS1 fallback, `authenticate`
returns `(nil, nil)`, so `ServeHTTP` takes its success path: the wrapped
handler is invoked, a nil authentication response is attached, and no 401 is
written. -/
theorem serveHTTP_notAuthenticated_invokes_handler :
    noAuth "alice" "secret" = Except.ok none
    ∧ restServeHTTP noAuth (some ("alice", "secret"))
      = { headers := [], status := none, chainInvoked := true,
          attached := some none, handlerInvoked := true } := by
  constructor
  · rfl
  · rfl

/-- C9: a request without (or with malformed) Basic Authentication
credentials gets a 401 with the challenge header
`WWW-Authenticate: Basic realm="CAS Protected Area"`; neither the CAS
authentication chain nor the wrapped handler is ever invoked. -/
theorem serveHTTP_no_credentials
    (auth : String → String → Except String (Option AuthenticationResponse)) :
    restServeHTTP auth none
      = { headers := [("WWW-Authenticate", "Basic realm=\"CAS Protected Area\"")],
          status := some 401, chainInvoked := false, attached := none,
          handlerInvoked := false } := rfl

/-- C4: a 200 CAS1 response whose body is exactly `"no\n\n"` yields the
NotAuthenticated outcome `(nil, nil)` — no authentication response and no
error — and that outcome is distinct from every error value. -/
theorem cas1_no_marker_notAuthenticated (validator : ServiceTicketValidator)
    (net : Net) (serviceURL : URL) (ticket : String)
    (h : net (ValidateUrl validator serviceURL ticket)
      = Except.ok { statusCode := 200, body := "no\n\n" }) :
    (validateTicketCas1 validator net serviceURL ticket).1
      = GoResult.ok (Except.ok none)
    ∧ ∀ msg : String,
      (Except.ok none : Except String (Option AuthenticationResponse))
        ≠ Except.error msg := by
  refine ⟨?_, fun msg h' => Except.noConfusion h'⟩
  unfold validateTicketCas1
  dsimp only
  rw [h]
  rfl

/-- Witness for C4: the concrete endpoint and a network answering 200
`"no\n\n"`. -/
theorem cas1_no_marker_notAuthenticated_witness :
    (validateTicketCas1 exValidator (constNet 200 "no\n\n") exService "ST-1").1
      = GoResult.ok (Except.ok none) :=
  (cas1_no_marker_notAuthenticated exValidator (constNet 200 "no\n\n")
    exService "ST-1" rfl).1

/-- C5: a 200 CAS1 response whose body is exactly `"yes\nalice\n"` yields
Success with principal `"alice"` and no attributes, and `"alice"` is exactly
the Go slice `body[4 : len(body)-1]` — the fixed 4-byte prefix and the
trailing newline trimmed. -/
theorem cas1_yes_alice_success (validator : ServiceTicketValidator)
    (net : Net) (serviceURL : URL) (ticket : String)
    (h : net (ValidateUrl validator serviceURL ticket)
      = Except.ok { statusCode := 200, body := "yes\nalice\n" }) :
    (validateTicketCas1 validator net serviceURL ticket).1
      = GoResult.ok (Except.ok (some { User := "alice", Attributes := [] }))
    ∧ goSlice "yes\nalice\n" 4 ("yes\nalice\n".data.length - 1)
      = GoResult.ok "alice" := by
  constructor
  · unfold validateTicketCas1
    dsimp only
    rw [h]
    rfl
  · rfl

/-- Witness for C5: the concrete endpoint and a network answering 200
`"yes\nalice\n"`. -/
theorem cas1_yes_alice_success_witness :
    (validateTicketCas1 exValidator (constNet 200 "yes\nalice\n") exService "ST-1").1
      = GoResult.ok (Except.ok (some { User := "alice", Attributes := [] })) :=
  (cas1_yes_alice_success exValidator (constNet 200 "yes\nalice\n")
    exService "ST-1" rfl).1

/-- C2 counterexample: the 200 body `"maybe\n"` is neither the negative
marker nor of the positive `yes\n<user>\n` shape, yet `validateTicketCas1`
returns a Success outcome (with principal `"e"`), not a parse error. -/
theorem cas1_other_body_counterexample :
    ("maybe\n" : String) ≠ "no\n\n"
    ∧ List.isPrefixOf "yes\n".data "maybe\n".data = false
    ∧ (validateTicketCas1 exValidator (constNet 200 "maybe\n") exService "ST-1").1
      = GoResult.ok (Except.ok (some { User := "e", Attributes := [] })) := by
  refine ⟨by decide, by decide, ?_⟩
  rfl

/-- C2 amended: on a 200 CAS1 response whose body differs from `"no\n\n"`
and has at least 5 bytes, `validateTicketCas1` returns Success with principal
`body[4 : len(body)-1]`, whatever the body shape — no parse error is ever
produced. -/
theorem cas1_other_body_success (validator : ServiceTicketValidator)
    (net : Net) (serviceURL : URL) (ticket : String) (body : String)
    (h : net (ValidateUrl validator serviceURL ticket)
      = Except.ok { statusCode := 200, body := body })
    (hno : body ≠ "no\n\n") (hlen : 5 ≤ body.data.length) :
    (validateTicketCas1 validator net serviceURL ticket).1
      = GoResult.ok (Except.ok (some
        { User := String.mk ((body.data.drop 4).take (body.data.length - 1 - 4)),
          Attributes := [] })) := by
  unfold validateTicketCas1 goSlice
  dsimp only
  rw [h]
  have hb : body.length = body.data.length := rfl
  have hlen1 : 4 ≤ body.length - 1 := by omega
  have hlen2 : body.length - 1 ≤ body.length := by omega
  simp [hno, hlen1, hlen2]

/-- Witness for C2's amended claim at the concrete body `"yes\nbob\n"`. -/
theorem cas1_other_body_success_witness :
    (validateTicketCas1 exValidator (constNet 200 "yes\nbob\n") exService "ST-1").1
      = GoResult.ok (Except.ok (some
        { User := String.mk (("yes\nbob\n".data.drop 4).take
            ("yes\nbob\n".data.length - 1 - 4)),
          Attributes := [] })) :=
  cas1_other_body_success exValidator (constNet 200 "yes\nbob\n") exService "ST-1"
    "yes\nbob\n" rfl (by decide) (by decide)

/-- C3 counterexample: the empty 200 body differs from `"no\n\n"`, but the Go
slice `body[4 : len(body)-1]` is out of bounds — `validateTicketCas1` panics
instead of returning. -/
theorem cas1_short_body_counterexample :
    ("" : String) ≠ "no\n\n"
    ∧ (validateTicketCas1 exValidator (constNet 200 "") exService "ST-1").1
      = GoResult.panic "slice bounds out of range" := by
  refine ⟨by decide, ?_⟩
  rfl

/-- C3 amended: the CAS1 slice is within bounds exactly when the body has at
least 5 bytes: on a 200 response, `validateTicketCas1` never panics when
`5 ≤ len(body)`, and panics on any shorter body other than `"no\n\n"`. -/
theorem cas1_totality_bound (validator : ServiceTicketValidator) (net : Net)
    (serviceURL : URL) (ticket : String) (body : String)
    (h : net (ValidateUrl validator serviceURL ticket)
      = Except.ok { statusCode := 200, body := body }) :
    (5 ≤ body.data.length →
      ∀ m, (validateTicketCas1 validator net serviceURL ticket).1
        ≠ GoResult.panic m)
    ∧ (body ≠ "no\n\n" → body.data.length < 5 →
      (validateTicketCas1 validator net serviceURL ticket).1
        = GoResult.panic "slice bounds out of range") := by
  unfold validateTicketCas1 goSlice
  dsimp only
  rw [h]
  constructor
  · intro hlen m
    have hb : body.length = body.data.length := rfl
    have hlen1 : 4 ≤ body.length - 1 := by omega
    have hlen2 : body.length - 1 ≤ body.length := by omega
    by_cases hno : body = "no\n\n" <;> simp [hno, hlen1, hlen2]
  · intro hno hlen
    have hb : body.length = body.data.length := rfl
    have hlen1 : ¬ 4 ≤ body.length - 1 := by omega
    simp [hno, hlen1]

/-- Witness for C3's amended claim: the two-byte body `"ab"` panics. -/
theorem cas1_totality_bound_witness :
    (validateTicketCas1 exValidator (constNet 200 "ab") exService "ST-1").1
      = GoResult.panic "slice bounds out of range" :=
  (cas1_totality_bound exValidator (constNet 200 "ab") exService "ST-1" "ab"
    rfl).2 (by decide) (by decide)

/-- C6: the CAS1 fallback happens exactly on a 404 from the CAS2 attempt, and
then exactly one follow-up GET is issued, to the CAS1 validate URL built from
the identical `serviceURL` and `ticket`; any non-404 response, and any
transport error, issues no CAS1 request. -/
theorem validateTicket_fallback_once (validator : ServiceTicketValidator)
    (net : Net) (parse : String → Except String AuthenticationResponse)
    (serviceURL : URL) (ticket : String) :
    (∀ resp, net (ServiceValidateUrl validator serviceURL ticket) = Except.ok resp →
      (resp.statusCode = 404 →
        (ValidateTicket validator net parse serviceURL ticket).2.requests
          = [ServiceValidateUrl validator serviceURL ticket,
             ValidateUrl validator serviceURL ticket])
      ∧ (resp.statusCode ≠ 404 →
        (ValidateTicket validator net parse serviceURL ticket).2.requests
          = [ServiceValidateUrl validator serviceURL ticket]))
    ∧ (∀ e, net (ServiceValidateUrl validator serviceURL ticket) = Except.error e →
        (ValidateTicket validator net parse serviceURL ticket).2.requests
          = [ServiceValidateUrl validator serviceURL ticket]) := by
  constructor
  · intro resp hresp
    constructor
    · intro h404
      unfold ValidateTicket
      dsimp only
      rw [hresp]
      dsimp only
      rw [if_pos h404]
      dsimp only
      rw [show (validateTicketCas1 validator net serviceURL ticket).2
        = [ValidateUrl validator serviceURL ticket]
        from validateTicketCas1_requests validator net serviceURL ticket]
    · intro h404
      unfold ValidateTicket
      dsimp only
      rw [hresp]
      dsimp only
      rw [if_neg h404]
      repeat' split
      all_goals rfl
  · intro e he
    unfold ValidateTicket
    dsimp only
    rw [he]

/-- Witness for C6: a network answering 404 everywhere issues exactly the
CAS2 request then the one CAS1 fallback request. -/
theorem validateTicket_fallback_once_witness :
    (ValidateTicket exValidator (constNet 404 "Not Found") failParse
      exService "ST-1").2.requests
      = [ServiceValidateUrl exValidator exService "ST-1",
         ValidateUrl exValidator exService "ST-1"] :=
  ((validateTicket_fallback_once exValidator (constNet 404 "Not Found") failParse
    exService "ST-1").1 { statusCode := 404, body := "Not Found" } rfl).1 rfl

/-- C7: a CAS2 response with status neither 200 nor 404 terminates
`ValidateTicket` with a protocol error carrying the body text; no CAS1
fallback request is issued and the response parser is never invoked. -/
theorem validateTicket_protocol_error (validator : ServiceTicketValidator)
    (net : Net) (parse : String → Except String AuthenticationResponse)
    (serviceURL : URL) (ticket : String) (resp : HttpResponse)
    (h : net (ServiceValidateUrl validator serviceURL ticket) = Except.ok resp)
    (h404 : resp.statusCode ≠ 404) (h200 : resp.statusCode ≠ 200) :
    ValidateTicket validator net parse serviceURL ticket
      = (GoResult.ok (Except.error ("cas: validate ticket: " ++ resp.body)),
         { requests := [ServiceValidateUrl validator serviceURL ticket],
           parserCalls := [] }) := by
  unfold ValidateTicket
  dsimp only
  rw [h]
  dsimp only
  rw [if_neg h404, if_pos h200]

/-- Witness for C7: a network answering 500 `"boom"` everywhere. -/
theorem validateTicket_protocol_error_witness :
    ValidateTicket exValidator (constNet 500 "boom") failParse exService "ST-1"
      = (GoResult.ok (Except.error ("cas: validate ticket: " ++ "boom")),
         { requests := [ServiceValidateUrl exValidator exService "ST-1"],
           parserCalls := [] }) :=
  validateTicket_protocol_error exValidator (constNet 500 "boom") failParse
    exService "ST-1" { statusCode := 500, body := "boom" } rfl
    (by decide) (by decide)

/-- C8: the serviceURL is rendered identically in both validation URL
builders: `ServiceValidateUrl` (CAS2) and `ValidateUrl` (CAS1) embed the same
sanitised rendering of `serviceURL` (and the same `ticket`) in a shared query
suffix, and the two built URL strings differ only in the final path segment
(`serviceValidate` vs `validate`). -/
theorem serviceValidateUrl_validateUrl_same_shape
    (validator : ServiceTicketValidator) (serviceURL : URL) (ticket : String) :
    ∃ pre suf : String,
      ServiceValidateUrl validator serviceURL ticket
        = pre ++ "serviceValidate" ++ suf
      ∧ ValidateUrl validator serviceURL ticket = pre ++ "validate" ++ suf
      ∧ suf = "?" ++ encodeQuery
          [("service", sanitisedURLString serviceURL), ("ticket", ticket)] := by
  refine ⟨validator.casURL.scheme ++ "://" ++ validator.casURL.host
      ++ String.mk (resolveFactor validator.casURL.path.data),
    "?" ++ encodeQuery
      [("service", sanitisedURLString serviceURL), ("ticket", ticket)],
    ?_, ?_, rfl⟩
  · rw [show ServiceValidateUrl validator serviceURL ticket
        = urlString { scheme := validator.casURL.scheme,
                      host := validator.casURL.host,
                      path := resolvePath validator.casURL.path
                        (pathJoin validator.casURL.path "serviceValidate"),
                      rawQuery := encodeQuery
                        [("service", sanitisedURLString serviceURL),
                         ("ticket", ticket)] } from rfl]
    exact builtUrl_decompose validator.casURL _ _ "serviceValidate"
      (by decide) (by decide) (by decide) (by decide)
  · rw [show ValidateUrl validator serviceURL ticket
        = urlString { scheme := validator.casURL.scheme,
                      host := validator.casURL.host,
                      path := resolvePath validator.casURL.path
                        (pathJoin validator.casURL.path "validate"),
                      rawQuery := encodeQuery
                        [("service", sanitisedURLString serviceURL),
                         ("ticket", ticket)] } from rfl]
    exact builtUrl_decompose validator.casURL _ _ "validate"
      (by decide) (by decide) (by decide) (by decide)

/-- C10: the URL builders are effect-free on their inputs: in the
state-passing embedding, both return the validator's `casURL` and the given
`serviceURL` unchanged, while computing the same strings as the direct
definitions. -/
theorem buildUrls_frame (casURL serviceURL : URL) (ticket : String) :
    (ServiceValidateUrlSt casURL serviceURL ticket).2 = (casURL, serviceURL)
    ∧ (ValidateUrlSt casURL serviceURL ticket).2 = (casURL, serviceURL)
    ∧ (ServiceValidateUrlSt casURL serviceURL ticket).1
      = ServiceValidateUrl ⟨casURL⟩ serviceURL ticket
    ∧ (ValidateUrlSt casURL serviceURL ticket).1
      = ValidateUrl ⟨casURL⟩ serviceURL ticket :=
  ⟨rfl, rfl, rfl, rfl⟩

end Cas
